import Mathlib

/-!
A shallow embedding of the snapshot segment provider
(crates/storage/provider/src/providers/snapshot/jar.rs) of the reth
repository, together with proofs about its query surface.

Domain values are modelled as natural numbers: block and transaction
hashes, header payloads, total difficulty values, receipts and signer
addresses are opaque data as far as the provider logic is concerned.
The u64 arithmetic of the source is modelled on Nat; the two places
where the source performs unchecked u64 arithmetic (the increments
inside to_range and the capacity subtractions of the range queries) are
modelled as explicit checked operations returning Option, so that an
arithmetic overflow panic of the source corresponds to the value none.
-/

/-- The largest u64, the sentinel value to_range uses for an unbounded
upper bound. -/
def u64MAX : Nat := 2 ^ 64 - 1

/-- The errors the provider itself produces: the distinct
"unsupported by this provider" signal (ProviderError::UnsupportedProvider)
and the batch sender-recovery validation failure
(BlockValidationError::SenderRecoveryError). -/
inductive RethError where
  | unsupportedProvider
  | senderRecoveryError
deriving DecidableEq, Repr

/-- Result type of the provider methods (RethResult of the source). -/
abbrev RethResult (α : Type) := Except RethError α

/-- One row of a header segment: the header payload, the block hash and
the compact total-difficulty columns. -/
structure HeaderRow where
  header : Nat
  hash : Nat
  td : Nat
deriving DecidableEq, Repr

/-- Modelled from the spec: the immutable segment behind a loaded jar, as
seen through the Cursor contract (the concrete cursor, SnapshotCursor of
reth_db, is external to the translated source).  resolve is the content
hash index: it maps a hash to a candidate row, which may be an adjacent
or stale row — this is exactly why hash-keyed queries re-validate.  The
row maps for the three segment kinds are kept side by side; a jar of a
given kind simply leaves the others unused. -/
structure Jar where
  resolve : Nat → Option Nat
  headerRows : Nat → Option HeaderRow
  txRows : Nat → Option Nat
  receiptRows : Nat → Option Nat

/-- A cursor positioning key: a numeric row index or a content hash. -/
inductive Key where
  | num (n : Nat)
  | hash (h : Nat)

/-- Modelled from the spec: the stateful segment cursor.  row tracks the
row key of the last successfully decoded row (SnapshotCursor::number). -/
structure Cursor where
  jar : Jar
  row : Nat

/-- Resolve a positioning key to a row index: numeric keys are row
indices already, hash keys go through the jar's hash index. -/
def resolveKey (j : Jar) : Key → Option Nat
  | Key.num n => some n
  | Key.hash h => j.resolve h

/-- Modelled from the spec: get_one(mask, key) decodes the masked
column(s) at the key-resolved row; on a successful decode the cursor
remembers that row as its position. -/
def Cursor.get_one (c : Cursor) (mask : Jar → Nat → Option α) (k : Key) :
    Option α × Cursor :=
  match resolveKey c.jar k with
  | none => (none, c)
  | some r =>
    match mask c.jar r with
    | none => (none, c)
    | some v => (some v, { c with row := r })

/-- Modelled from the spec: get_two(mask, key) decodes a two-column mask;
it behaves as get_one at a pair-valued mask. -/
def Cursor.get_two (c : Cursor) (mask : Jar → Nat → Option (α × β)) (k : Key) :
    Option (α × β) × Cursor :=
  c.get_one mask k

/-- Column mask HeaderMask Header: the header column alone. -/
def headerCol (j : Jar) (n : Nat) : Option Nat :=
  (j.headerRows n).map (fun hr => hr.header)

/-- Column mask HeaderMask BlockHash: the block hash column alone. -/
def hashCol (j : Jar) (n : Nat) : Option Nat :=
  (j.headerRows n).map (fun hr => hr.hash)

/-- Column mask HeaderMask CompactU256: the total difficulty column. -/
def tdCol (j : Jar) (n : Nat) : Option Nat :=
  (j.headerRows n).map (fun hr => hr.td)

/-- Column mask HeaderMask (Header, BlockHash). -/
def headerHashCol (j : Jar) (n : Nat) : Option (Nat × Nat) :=
  (j.headerRows n).map (fun hr => (hr.header, hr.hash))

/-- Column mask HeaderMask (CompactU256, BlockHash). -/
def tdHashCol (j : Jar) (n : Nat) : Option (Nat × Nat) :=
  (j.headerRows n).map (fun hr => (hr.td, hr.hash))

/-- Column mask TransactionMask TransactionSignedNoHash: the stored
transaction record (stored without its hash). -/
def txCol (j : Jar) (n : Nat) : Option Nat :=
  j.txRows n

/-- Column mask ReceiptMask Receipt. -/
def receiptCol (j : Jar) (n : Nat) : Option Nat :=
  j.receiptRows n

/-- A hash-bearing transaction (TransactionSigned): the stored payload
together with its materialized hash. -/
structure TransactionSigned where
  transaction : Nat
  hash : Nat
deriving DecidableEq, Repr

/-- TransactionSignedNoHash::with_hash — lazy hash materialization: the
hash function hashFn stands for hashing the signed payload. -/
def with_hash (hashFn : Nat → Nat) (tx : Nat) : TransactionSigned :=
  { transaction := tx, hash := hashFn tx }

/-- Provider over a specific jar; may chain one auxiliar snapshot
provider used to answer queries the main segment cannot index. -/
inductive SnapshotJarProvider where
  | mk (jar : Jar) (auxiliar_jar : Option SnapshotJarProvider)

/-- The main snapshot segment of the provider. -/
def SnapshotJarProvider.jar : SnapshotJarProvider → Jar
  | SnapshotJarProvider.mk j _ => j

/-- The optional auxiliar snapshot provider. -/
def SnapshotJarProvider.auxiliar_jar :
    SnapshotJarProvider → Option SnapshotJarProvider
  | SnapshotJarProvider.mk _ a => a

/-- From LoadedJarRef for SnapshotJarProvider: a bare provider with no
auxiliar segment. -/
def SnapshotJarProvider.fromJar (j : Jar) : SnapshotJarProvider :=
  SnapshotJarProvider.mk j none

/-- SnapshotJarProvider::with_auxiliar. -/
def SnapshotJarProvider.with_auxiliar :
    SnapshotJarProvider → SnapshotJarProvider → SnapshotJarProvider
  | SnapshotJarProvider.mk j _, aux => SnapshotJarProvider.mk j (some aux)

/-- SnapshotJarProvider::cursor: a fresh cursor over the provider's jar. -/
def SnapshotJarProvider.cursor (p : SnapshotJarProvider) : Cursor :=
  { jar := p.jar, row := 0 }

/-- Rust RangeBounds endpoints over the u64 row-key domain. -/
inductive Bound where
  | included (v : Nat)
  | excluded (v : Nat)
  | unbounded
deriving DecidableEq, Repr

/-- The unchecked u64 increment of the source (v + 1), modelled as a
checked operation: it overflows exactly when v is already u64MAX. -/
def u64AddOne (v : Nat) : Option Nat :=
  if v < u64MAX then some (v + 1) else none

/-- The unchecked u64 subtraction of the source (a - b), modelled as a
checked operation: it underflows exactly when b exceeds a. -/
def u64Sub (a b : Nat) : Option Nat :=
  if b ≤ a then some (a - b) else none

/-- to_range: normalize an arbitrary bound pair into a canonical
half-open range.  The result is none exactly when one of the two
unchecked increments of the source overflows. -/
def to_range (s e : Bound) : Option (Nat × Nat) :=
  match (match s with
         | Bound.included v => some v
         | Bound.excluded v => u64AddOne v
         | Bound.unbounded => some 0) with
  | none => none
  | some a =>
    match (match e with
           | Bound.included v => u64AddOne v
           | Bound.excluded v => some v
           | Bound.unbounded => some u64MAX) with
    | none => none
    | some b => some (a, b)

/-- The per-row loop shared by the range queries of the source: decode
the masked column at each row key in turn, keeping the values that are
present and silently skipping absent rows. -/
def colLoop (mask : Jar → Nat → Option α) : Cursor → List Nat → List α × Cursor
  | c, [] => ([], c)
  | c, n :: ns =>
    let step := c.get_one mask (Key.num n)
    let rest := colLoop mask step.2 ns
    match step.1 with
    | some v => (v :: rest.1, rest.2)
    | none => (rest.1, rest.2)

/-- HeaderProvider::header — hash-keyed header lookup with the
hash-equality re-check. -/
def SnapshotJarProvider.header (p : SnapshotJarProvider) (block_hash : Nat) :
    RethResult (Option Nat) :=
  Except.ok
    ((Option.filter (fun x => x.2 == block_hash)
        (p.cursor.get_two headerHashCol (Key.hash block_hash)).1).map
      (fun x => x.1))

/-- HeaderProvider::header_by_number. -/
def SnapshotJarProvider.header_by_number (p : SnapshotJarProvider) (num : Nat) :
    RethResult (Option Nat) :=
  Except.ok (p.cursor.get_one headerCol (Key.num num)).1

/-- HeaderProvider::header_td — hash-keyed total-difficulty lookup with
the hash-equality re-check. -/
def SnapshotJarProvider.header_td (p : SnapshotJarProvider) (block_hash : Nat) :
    RethResult (Option Nat) :=
  Except.ok
    ((Option.filter (fun x => x.2 == block_hash)
        (p.cursor.get_two tdHashCol (Key.hash block_hash)).1).map
      (fun x => x.1))

/-- HeaderProvider::header_td_by_number. -/
def SnapshotJarProvider.header_td_by_number (p : SnapshotJarProvider) (num : Nat) :
    RethResult (Option Nat) :=
  Except.ok (p.cursor.get_one tdCol (Key.num num)).1

/-- HeaderProvider::headers_range: normalize the bounds, reserve capacity
for the span (an unchecked u64 subtraction in the source), then decode
the header column at each row key of the half-open range. -/
def SnapshotJarProvider.headers_range (p : SnapshotJarProvider) (s e : Bound) :
    Option (RethResult (List Nat)) :=
  match to_range s e with
  | none => none
  | some (a, b) =>
    match u64Sub b a with
    | none => none
    | some _capacity =>
      some (Except.ok (colLoop headerCol p.cursor (List.range' a (b - a))).1)

/-- HeaderProvider::sealed_headers_range: as headers_range but decoding
(header, hash) pairs, sealing each header with its stored hash. -/
def SnapshotJarProvider.sealed_headers_range (p : SnapshotJarProvider) (s e : Bound) :
    Option (RethResult (List (Nat × Nat))) :=
  match to_range s e with
  | none => none
  | some (a, b) =>
    match u64Sub b a with
    | none => none
    | some _capacity =>
      some (Except.ok (colLoop headerHashCol p.cursor (List.range' a (b - a))).1)

/-- HeaderProvider::sealed_header. -/
def SnapshotJarProvider.sealed_header (p : SnapshotJarProvider) (number : Nat) :
    RethResult (Option (Nat × Nat)) :=
  Except.ok (p.cursor.get_two headerHashCol (Key.num number)).1

/-- BlockHashReader::block_hash. -/
def SnapshotJarProvider.block_hash (p : SnapshotJarProvider) (number : Nat) :
    RethResult (Option Nat) :=
  Except.ok (p.cursor.get_one hashCol (Key.num number)).1

/-- BlockHashReader::canonical_hashes_range: explicit start/end row keys,
capacity from an unchecked u64 subtraction, then one hash decode per
row key. -/
def SnapshotJarProvider.canonical_hashes_range (p : SnapshotJarProvider)
    (start endv : Nat) : Option (RethResult (List Nat)) :=
  match u64Sub endv start with
  | none => none
  | some _capacity =>
    some (Except.ok (colLoop hashCol p.cursor (List.range' start (endv - start))).1)

/-- BlockNumReader::chain_info — information on the live database only. -/
def SnapshotJarProvider.chain_info (_p : SnapshotJarProvider) : RethResult Nat :=
  Except.error RethError.unsupportedProvider

/-- BlockNumReader::best_block_number — live database only. -/
def SnapshotJarProvider.best_block_number (_p : SnapshotJarProvider) :
    RethResult Nat :=
  Except.error RethError.unsupportedProvider

/-- BlockNumReader::last_block_number — live database only. -/
def SnapshotJarProvider.last_block_number (_p : SnapshotJarProvider) :
    RethResult Nat :=
  Except.error RethError.unsupportedProvider

/-- BlockNumReader::block_number: hash-keyed lookup of the row key; the
re-check compares the decoded hash column against the query hash and on
success returns the cursor's position after the decode. -/
def SnapshotJarProvider.block_number (p : SnapshotJarProvider) (hash : Nat) :
    RethResult (Option Nat) :=
  let r := p.cursor.get_one hashCol (Key.hash hash)
  Except.ok (r.1.bind (fun res => if res == hash then some r.2.row else none))

/-- TransactionsProvider::transaction_id: hash-keyed lookup of the row
key over the transaction segment; the stored record's hash is
materialized only to perform the equality re-check. -/
def SnapshotJarProvider.transaction_id (hashFn : Nat → Nat)
    (p : SnapshotJarProvider) (hash : Nat) : RethResult (Option Nat) :=
  let r := p.cursor.get_one txCol (Key.hash hash)
  Except.ok (r.1.bind (fun res => if hashFn res == hash then some r.2.row else none))

/-- TransactionsProvider::transaction_by_id. -/
def SnapshotJarProvider.transaction_by_id (hashFn : Nat → Nat)
    (p : SnapshotJarProvider) (num : Nat) : RethResult (Option TransactionSigned) :=
  Except.ok ((p.cursor.get_one txCol (Key.num num)).1.map (with_hash hashFn))

/-- TransactionsProvider::transaction_by_id_no_hash. -/
def SnapshotJarProvider.transaction_by_id_no_hash (p : SnapshotJarProvider)
    (num : Nat) : RethResult (Option Nat) :=
  Except.ok (p.cursor.get_one txCol (Key.num num)).1

/-- TransactionsProvider::transaction_by_hash: hash-keyed decode of the
stored record, materializing the hash on the way out. -/
def SnapshotJarProvider.transaction_by_hash (hashFn : Nat → Nat)
    (p : SnapshotJarProvider) (hash : Nat) : RethResult (Option TransactionSigned) :=
  Except.ok ((p.cursor.get_one txCol (Key.hash hash)).1.map (with_hash hashFn))

/-- A block identifier: hash or number (BlockHashOrNumber). -/
inductive BlockHashOrNumber where
  | hash (h : Nat)
  | number (n : Nat)
deriving DecidableEq, Repr

/-- TransactionsProvider::transaction_by_hash_with_meta — needs the
TransactionBlock indexing table, absent from a bare segment. -/
def SnapshotJarProvider.transaction_by_hash_with_meta (_p : SnapshotJarProvider)
    (_hash : Nat) : RethResult (Option (TransactionSigned × Nat)) :=
  Except.error RethError.unsupportedProvider

/-- TransactionsProvider::transaction_block — needs the TransactionBlock
indexing table. -/
def SnapshotJarProvider.transaction_block (_p : SnapshotJarProvider)
    (_id : Nat) : RethResult (Option Nat) :=
  Except.error RethError.unsupportedProvider

/-- TransactionsProvider::transactions_by_block — related to indexing
tables; the live database should derive a tx range instead. -/
def SnapshotJarProvider.transactions_by_block (_p : SnapshotJarProvider)
    (_block_id : BlockHashOrNumber) : RethResult (Option (List TransactionSigned)) :=
  Except.error RethError.unsupportedProvider

/-- TransactionsProvider::transactions_by_block_range — related to
indexing tables. -/
def SnapshotJarProvider.transactions_by_block_range (_p : SnapshotJarProvider)
    (_s _e : Bound) : RethResult (List (List TransactionSigned)) :=
  Except.error RethError.unsupportedProvider

/-- TransactionsProvider::transactions_by_tx_range: normalize, reserve
capacity (unchecked u64 subtraction), decode the stored record at each
row key of the range, skipping absent rows. -/
def SnapshotJarProvider.transactions_by_tx_range (p : SnapshotJarProvider)
    (s e : Bound) : Option (RethResult (List Nat)) :=
  match to_range s e with
  | none => none
  | some (a, b) =>
    match u64Sub b a with
    | none => none
    | some _capacity =>
      some (Except.ok (colLoop txCol p.cursor (List.range' a (b - a))).1)

/-- Modelled from the spec: batch sender recovery
(TransactionSignedNoHash::recover_signers of reth_primitives, external
to the translated source) — recover the signer of every record of the
batch, in order, failing the whole batch as soon as any single recovery
fails.  recSigner stands for single-record signer recovery. -/
def recover_signers (recSigner : Nat → Option Nat) :
    List Nat → Nat → Option (List Nat)
  | [], _ => some []
  | tx :: txs, len =>
    match recSigner tx, recover_signers recSigner txs len with
    | some a, some rest => some (a :: rest)
    | _, _ => none

/-- TransactionsProvider::senders_by_tx_range: fetch the whole batch,
then run batch sender recovery over it; a recovery failure surfaces as
the sender-recovery validation error. -/
def SnapshotJarProvider.senders_by_tx_range (recSigner : Nat → Option Nat)
    (p : SnapshotJarProvider) (s e : Bound) : Option (RethResult (List Nat)) :=
  match p.transactions_by_tx_range s e with
  | none => none
  | some (Except.error er) => some (Except.error er)
  | some (Except.ok txs) =>
    match recover_signers recSigner txs txs.length with
    | none => some (Except.error RethError.senderRecoveryError)
    | some l => some (Except.ok l)

/-- TransactionsProvider::transaction_sender: single-record recovery;
a failed recovery is tolerated by omission (None), unlike the batch
path. -/
def SnapshotJarProvider.transaction_sender (recSigner : Nat → Option Nat)
    (p : SnapshotJarProvider) (num : Nat) : RethResult (Option Nat) :=
  Except.ok ((p.cursor.get_one txCol (Key.num num)).1.bind recSigner)

/-- ReceiptProvider::receipt. -/
def SnapshotJarProvider.receipt (p : SnapshotJarProvider) (num : Nat) :
    RethResult (Option Nat) :=
  Except.ok (p.cursor.get_one receiptCol (Key.num num)).1

/-- ReceiptProvider::receipt_by_hash: cross-segment indirection through
the auxiliar transaction provider; with no auxiliar attached the result
is None unconditionally. -/
def SnapshotJarProvider.receipt_by_hash (hashFn : Nat → Nat)
    (p : SnapshotJarProvider) (hash : Nat) : RethResult (Option Nat) :=
  match p.auxiliar_jar with
  | some tx_snapshot =>
    match SnapshotJarProvider.transaction_id hashFn tx_snapshot hash with
    | Except.error e => Except.error e
    | Except.ok (some num) => p.receipt num
    | Except.ok none => Except.ok none
  | none => Except.ok none

/-- ReceiptProvider::receipts_by_block — related to indexing tables. -/
def SnapshotJarProvider.receipts_by_block (_p : SnapshotJarProvider)
    (_block : BlockHashOrNumber) : RethResult (Option (List Nat)) :=
  Except.error RethError.unsupportedProvider

/-! ## Helper lemmas about the cursor, the row loop and batch recovery -/

/-- A numeric key resolves to itself, so get_one at a numeric key decodes
the masked column at exactly that row. -/
theorem Cursor.get_one_num_fst (c : Cursor) (mask : Jar → Nat → Option α) (n : Nat) :
    (c.get_one mask (Key.num n)).1 = mask c.jar n := by
  unfold Cursor.get_one
  simp only [resolveKey]
  cases h : mask c.jar n <;> simp [h]

/-- get_one never changes which jar the cursor reads. -/
theorem Cursor.get_one_jar (c : Cursor) (mask : Jar → Nat → Option α) (k : Key) :
    ((c.get_one mask k).2).jar = c.jar := by
  unfold Cursor.get_one
  rcases hr : resolveKey c.jar k with _ | r
  · simp
  · rcases hm : mask c.jar r with _ | v <;> simp [hm]

/-- The row loop of the range queries collects exactly the masked values
present at the visited row keys, in order. -/
theorem colLoop_fst (mask : Jar → Nat → Option α) (c : Cursor) (ns : List Nat) :
    (colLoop mask c ns).1 = ns.filterMap (fun n => mask c.jar n) := by
  induction ns generalizing c with
  | nil => rfl
  | cons n ns ih =>
    have hjar : ((c.get_one mask (Key.num n)).2).jar = c.jar :=
      Cursor.get_one_jar c mask (Key.num n)
    have hrec : (colLoop mask ((c.get_one mask (Key.num n)).2) ns).1
        = ns.filterMap (fun m => mask c.jar m) := by
      rw [ih, hjar]
    unfold colLoop
    cases hstep : (c.get_one mask (Key.num n)).1 with
    | none =>
      have hm : mask c.jar n = none := by
        rw [← Cursor.get_one_num_fst c mask n, hstep]
      simp [hstep, hm, hrec, List.filterMap_cons]
    | some v =>
      have hm : mask c.jar n = some v := by
        rw [← Cursor.get_one_num_fst c mask n, hstep]
      simp [hstep, hm, hrec, List.filterMap_cons]

/-- Batch recovery is all-or-nothing: it either recovers one address per
record, in order, or fails as a whole because some record fails. -/
theorem recover_signers_spec (recSigner : Nat → Option Nat) (txs : List Nat) (len : Nat) :
    (∃ l, recover_signers recSigner txs len = some l ∧
       List.Forall₂ (fun tx a => recSigner tx = some a) txs l) ∨
    (recover_signers recSigner txs len = none ∧ ∃ tx, tx ∈ txs ∧ recSigner tx = none) := by
  induction txs with
  | nil => exact Or.inl ⟨[], rfl, List.Forall₂.nil⟩
  | cons t ts ih =>
    cases ht : recSigner t with
    | none =>
      cases h2 : recover_signers recSigner ts len with
      | none => exact Or.inr ⟨by simp [recover_signers, ht, h2], t, by simp, ht⟩
      | some l2 => exact Or.inr ⟨by simp [recover_signers, ht, h2], t, by simp, ht⟩
    | some a =>
      rcases ih with ⟨l, hl, hfa⟩ | ⟨hn, tx, htx, hnone⟩
      · exact Or.inl ⟨a :: l, by simp [recover_signers, ht, hl], List.Forall₂.cons ht hfa⟩
      · exact Or.inr ⟨by simp [recover_signers, ht, hn], tx, by simp [htx], hnone⟩

/-! ## Closed-form equations for the single-row hash-keyed queries -/

/-- header resolves through the hash index, decodes (header, hash) and
keeps the header only when the decoded hash equals the queried one. -/
theorem header_eq (p : SnapshotJarProvider) (h : Nat) :
    p.header h = Except.ok (match p.jar.resolve h with
      | none => none
      | some r =>
        match p.jar.headerRows r with
        | none => none
        | some hr => if hr.hash = h then some hr.header else none) := by
  unfold SnapshotJarProvider.header Cursor.get_two Cursor.get_one
  rcases hres : p.jar.resolve h with _ | r
  · simp [resolveKey, SnapshotJarProvider.cursor, hres, Option.filter]
  · rcases hrow : p.jar.headerRows r with _ | hr
    · simp [resolveKey, SnapshotJarProvider.cursor, hres, hrow, headerHashCol, Option.filter]
    · by_cases hh : hr.hash = h <;>
        simp [resolveKey, SnapshotJarProvider.cursor, hres, hrow, headerHashCol,
          Option.filter, hh]

/-- header_td has the same validated shape over the total-difficulty
column. -/
theorem header_td_eq (p : SnapshotJarProvider) (h : Nat) :
    p.header_td h = Except.ok (match p.jar.resolve h with
      | none => none
      | some r =>
        match p.jar.headerRows r with
        | none => none
        | some hr => if hr.hash = h then some hr.td else none) := by
  unfold SnapshotJarProvider.header_td Cursor.get_two Cursor.get_one
  rcases hres : p.jar.resolve h with _ | r
  · simp [resolveKey, SnapshotJarProvider.cursor, hres, Option.filter]
  · rcases hrow : p.jar.headerRows r with _ | hr
    · simp [resolveKey, SnapshotJarProvider.cursor, hres, hrow, tdHashCol, Option.filter]
    · by_cases hh : hr.hash = h <;>
        simp [resolveKey, SnapshotJarProvider.cursor, hres, hrow, tdHashCol,
          Option.filter, hh]

/-- block_number decodes the hash column at the resolved row and, on
equality with the query, returns that row key (the cursor position after
the decode). -/
theorem block_number_eq (p : SnapshotJarProvider) (h : Nat) :
    p.block_number h = Except.ok (match p.jar.resolve h with
      | none => none
      | some r =>
        match p.jar.headerRows r with
        | none => none
        | some hr => if hr.hash = h then some r else none) := by
  unfold SnapshotJarProvider.block_number Cursor.get_one
  rcases hres : p.jar.resolve h with _ | r
  · simp [resolveKey, SnapshotJarProvider.cursor, hres]
  · rcases hrow : p.jar.headerRows r with _ | hr
    · simp [resolveKey, SnapshotJarProvider.cursor, hres, hrow, hashCol]
    · by_cases hh : hr.hash = h <;>
        simp [resolveKey, SnapshotJarProvider.cursor, hres, hrow, hashCol, hh]

/-- transaction_id decodes the stored record at the hash-resolved row,
materializes its hash for the equality re-check and, on success, returns
that row key. -/
theorem transaction_id_eq (hashFn : Nat → Nat) (p : SnapshotJarProvider) (h : Nat) :
    SnapshotJarProvider.transaction_id hashFn p h =
      Except.ok (match p.jar.resolve h with
      | none => none
      | some r =>
        match p.jar.txRows r with
        | none => none
        | some tx => if hashFn tx = h then some r else none) := by
  unfold SnapshotJarProvider.transaction_id Cursor.get_one
  rcases hres : p.jar.resolve h with _ | r
  · simp [resolveKey, SnapshotJarProvider.cursor, hres, txCol]
  · rcases hrow : p.jar.txRows r with _ | tx
    · simp [resolveKey, SnapshotJarProvider.cursor, hres, hrow, txCol]
    · by_cases hh : hashFn tx = h <;>
        simp [resolveKey, SnapshotJarProvider.cursor, hres, hrow, txCol, hh]

/-- transaction_by_hash decodes the stored record at the hash-resolved
row and returns it with its materialized hash, with no equality check. -/
theorem transaction_by_hash_eq (hashFn : Nat → Nat) (p : SnapshotJarProvider) (h : Nat) :
    SnapshotJarProvider.transaction_by_hash hashFn p h =
      Except.ok (((p.jar.resolve h).bind p.jar.txRows).map (with_hash hashFn)) := by
  unfold SnapshotJarProvider.transaction_by_hash Cursor.get_one
  rcases hres : p.jar.resolve h with _ | r
  · simp [resolveKey, SnapshotJarProvider.cursor, hres, txCol]
  · rcases hrow : p.jar.txRows r with _ | tx <;>
      simp [resolveKey, SnapshotJarProvider.cursor, hres, hrow, txCol]

/-! ## Concrete jars used by counterexamples and witnesses -/

/-- A transaction jar whose hash index resolves hash 7 to row 0, while
the record stored at row 0 materializes (under the identity hash
function) to hash 5 — the adjacent/stale-row situation the validation
invariant is meant to catch. -/
def jarC1 : Jar :=
  { resolve := fun h => if h = 7 then some 0 else none
    headerRows := fun _ => none
    txRows := fun n => if n = 0 then some 5 else none
    receiptRows := fun _ => none }

/-- Bare provider over jarC1. -/
def providerC1 : SnapshotJarProvider := SnapshotJarProvider.fromJar jarC1

/-- A transaction jar holding a single record (payload 5) at row 0 and
nothing at row 1. -/
def jarC2 : Jar :=
  { resolve := fun _ => none
    headerRows := fun _ => none
    txRows := fun n => if n = 0 then some 5 else none
    receiptRows := fun _ => none }

/-- Bare provider over jarC2. -/
def providerC2 : SnapshotJarProvider := SnapshotJarProvider.fromJar jarC2

/-- A transaction jar whose hash index resolves hash 7 to row 3, where
the stored record (payload 7) materializes to hash 7 under the identity
hash function. -/
def jarC5tx : Jar :=
  { resolve := fun h => if h = 7 then some 3 else none
    headerRows := fun _ => none
    txRows := fun n => if n = 3 then some 7 else none
    receiptRows := fun _ => none }

/-- A receipt jar holding receipt 99 at row 3. -/
def jarC5rc : Jar :=
  { resolve := fun _ => none
    headerRows := fun _ => none
    txRows := fun _ => none
    receiptRows := fun n => if n = 3 then some 99 else none }

/-- Receipt provider over jarC5rc with the transaction provider over
jarC5tx attached as auxiliar. -/
def providerC5 : SnapshotJarProvider :=
  SnapshotJarProvider.with_auxiliar (SnapshotJarProvider.fromJar jarC5rc)
    (SnapshotJarProvider.fromJar jarC5tx)

/-- A header jar with rows 0 and 1 populated and everything else
absent. -/
def jarC6 : Jar :=
  { resolve := fun _ => none
    headerRows := fun n =>
      if n = 0 then some { header := 10, hash := 100, td := 0 }
      else if n = 1 then some { header := 11, hash := 101, td := 0 }
      else none
    txRows := fun _ => none
    receiptRows := fun _ => none }

/-- Bare provider over jarC6. -/
def providerC6 : SnapshotJarProvider := SnapshotJarProvider.fromJar jarC6

/-- A header jar whose hash index resolves hash 9 to row 4, where the
stored hash column is indeed 9. -/
def jarC7 : Jar :=
  { resolve := fun h => if h = 9 then some 4 else none
    headerRows := fun n => if n = 4 then some { header := 1, hash := 9, td := 0 } else none
    txRows := fun _ => none
    receiptRows := fun _ => none }

/-- Bare provider over jarC7. -/
def providerC7 : SnapshotJarProvider := SnapshotJarProvider.fromJar jarC7

/-! ## The claims -/

/-- C1 (amended): transaction_by_hash(h) performs the same hash-index
resolution and record decoding as transaction_id(h), but performs no
re-validation of the materialized hash: whenever the index resolves and
a record decodes there, it returns that record with its materialized
hash attached, even when that hash differs from h; transaction_id, by
contrast, returns the resolved row key only after the materialized hash
passes the equality re-check. -/
theorem claim1_transaction_by_hash_unvalidated (hashFn : Nat → Nat)
    (p : SnapshotJarProvider) (h : Nat) :
    SnapshotJarProvider.transaction_by_hash hashFn p h =
      Except.ok (((p.jar.resolve h).bind p.jar.txRows).map (with_hash hashFn)) ∧
    SnapshotJarProvider.transaction_id hashFn p h =
      Except.ok (match p.jar.resolve h with
      | none => none
      | some r =>
        match p.jar.txRows r with
        | none => none
        | some tx => if hashFn tx = h then some r else none) :=
  ⟨transaction_by_hash_eq hashFn p h, transaction_id_eq hashFn p h⟩

/-- C1 counterexample: on a jar whose hash index sends hash 7 to a row
whose record materializes to hash 5, transaction_by_hash returns that
wrong-hash transaction rather than None, while transaction_id on the
same jar and hash correctly returns None. -/
theorem claim1_counterexample :
    SnapshotJarProvider.transaction_by_hash (fun t => t) providerC1 7 =
      Except.ok (some { transaction := 5, hash := 5 }) ∧
    SnapshotJarProvider.transaction_id (fun t => t) providerC1 7 = Except.ok none ∧
    (5 : Nat) ≠ 7 :=
  ⟨rfl, rfl, by decide⟩

/-- C2 (amended): senders_by_tx_range either returns exactly one address
per transaction record actually decoded in the normalized range, in
row-key order, or fails the whole call with the sender-recovery
validation error as soon as recovery fails for any member of that
batch; it never returns a partial list over the batch. -/
theorem claim2_senders_all_or_nothing (recSigner : Nat → Option Nat)
    (p : SnapshotJarProvider) (s e : Bound) (txs : List Nat)
    (htx : p.transactions_by_tx_range s e = some (Except.ok txs)) :
    (∃ l, p.senders_by_tx_range recSigner s e = some (Except.ok l) ∧
       l.length = txs.length ∧
       List.Forall₂ (fun tx a => recSigner tx = some a) txs l) ∨
    (p.senders_by_tx_range recSigner s e =
        some (Except.error RethError.senderRecoveryError) ∧
       ∃ tx, tx ∈ txs ∧ recSigner tx = none) := by
  have hspec := recover_signers_spec recSigner txs txs.length
  unfold SnapshotJarProvider.senders_by_tx_range
  simp only [htx]
  rcases hspec with ⟨l, hl, hfa⟩ | ⟨hn, tx, htxm, hnone⟩
  · exact Or.inl ⟨l, by simp only [hl], (List.Forall₂.length_eq hfa).symm, hfa⟩
  · exact Or.inr ⟨by simp only [hn], tx, htxm, hnone⟩

/-- C2 witness: over jarC2 and the range 0..1 the batch is the single
record 5, and recovery (payload + 100) yields the single address 105. -/
theorem claim2_witness :
    (∃ l, SnapshotJarProvider.senders_by_tx_range (fun t => some (t + 100)) providerC2
        (Bound.included 0) (Bound.excluded 1) = some (Except.ok l) ∧
       l.length = List.length [5] ∧
       List.Forall₂ (fun tx a => (fun t => some (t + 100)) tx = some a) [5] l) ∨
    (SnapshotJarProvider.senders_by_tx_range (fun t => some (t + 100)) providerC2
        (Bound.included 0) (Bound.excluded 1) =
        some (Except.error RethError.senderRecoveryError) ∧
       ∃ tx, tx ∈ [5] ∧ (fun t => some (t + 100)) tx = none) :=
  claim2_senders_all_or_nothing (fun t => some (t + 100)) providerC2
    (Bound.included 0) (Bound.excluded 1) [5] rfl

/-- C2 counterexample: over jarC2 the normalized range 0..2 spans two
row keys but only one record is present, and with total recovery the
call returns the single address 105 — neither a list of span length 2
nor a failure. -/
theorem claim2_counterexample :
    SnapshotJarProvider.senders_by_tx_range (fun t => some (t + 100)) providerC2
      (Bound.included 0) (Bound.excluded 2) = some (Except.ok [105]) ∧
    to_range (Bound.included 0) (Bound.excluded 2) = some (0, 2) ∧
    ¬ (List.length [105] = 2 - 0) :=
  ⟨rfl, rfl, by decide⟩

/-- C3: every hash-keyed lookup — header, header_td, block_number and
transaction_id — re-checks after decoding that the hash decoded (or
materialized) at the resolved row equals the queried hash, and on any
mismatch (or failed resolution/decode) returns None rather than a value
from a wrong row. -/
theorem claim3_hash_validated (hashFn : Nat → Nat) (p : SnapshotJarProvider) (h : Nat) :
    p.header h = Except.ok (match p.jar.resolve h with
      | none => none
      | some r =>
        match p.jar.headerRows r with
        | none => none
        | some hr => if hr.hash = h then some hr.header else none) ∧
    p.header_td h = Except.ok (match p.jar.resolve h with
      | none => none
      | some r =>
        match p.jar.headerRows r with
        | none => none
        | some hr => if hr.hash = h then some hr.td else none) ∧
    p.block_number h = Except.ok (match p.jar.resolve h with
      | none => none
      | some r =>
        match p.jar.headerRows r with
        | none => none
        | some hr => if hr.hash = h then some r else none) ∧
    SnapshotJarProvider.transaction_id hashFn p h =
      Except.ok (match p.jar.resolve h with
      | none => none
      | some r =>
        match p.jar.txRows r with
        | none => none
        | some tx => if hashFn tx = h then some r else none) :=
  ⟨header_eq p h, header_td_eq p h, block_number_eq p h, transaction_id_eq hashFn p h⟩

/-- C4: every structurally unanswerable query — chain_info,
best_block_number, last_block_number, transaction_by_hash_with_meta,
transaction_block, transactions_by_block, transactions_by_block_range
and receipts_by_block — always returns the distinct unsupported-by-this-
provider error, never None, an empty list or a default value. -/
theorem claim4_unsupported_queries (p : SnapshotJarProvider) (h n : Nat)
    (bid : BlockHashOrNumber) (s e : Bound) :
    p.chain_info = Except.error RethError.unsupportedProvider ∧
    p.best_block_number = Except.error RethError.unsupportedProvider ∧
    p.last_block_number = Except.error RethError.unsupportedProvider ∧
    p.transaction_by_hash_with_meta h = Except.error RethError.unsupportedProvider ∧
    p.transaction_block n = Except.error RethError.unsupportedProvider ∧
    p.transactions_by_block bid = Except.error RethError.unsupportedProvider ∧
    p.transactions_by_block_range s e = Except.error RethError.unsupportedProvider ∧
    p.receipts_by_block bid = Except.error RethError.unsupportedProvider :=
  ⟨rfl, rfl, rfl, rfl, rfl, rfl, rfl, rfl⟩

/-- C5: with no auxiliar provider attached receipt_by_hash returns None
unconditionally; with an auxiliar transaction provider attached it
returns the same value as receipt on the row key the auxiliar's
transaction_id resolves to, and None when that lookup does not
resolve. -/
theorem claim5_receipt_by_hash (hashFn : Nat → Nat) (p aux : SnapshotJarProvider)
    (h : Nat) :
    (p.auxiliar_jar = none →
      SnapshotJarProvider.receipt_by_hash hashFn p h = Except.ok none) ∧
    (p.auxiliar_jar = some aux →
      (∀ k, SnapshotJarProvider.transaction_id hashFn aux h = Except.ok (some k) →
        SnapshotJarProvider.receipt_by_hash hashFn p h = p.receipt k) ∧
      (SnapshotJarProvider.transaction_id hashFn aux h = Except.ok none →
        SnapshotJarProvider.receipt_by_hash hashFn p h = Except.ok none)) := by
  constructor
  · intro hnone
    unfold SnapshotJarProvider.receipt_by_hash
    simp only [hnone]
  · intro hsome
    constructor
    · intro k hk
      unfold SnapshotJarProvider.receipt_by_hash
      simp only [hsome, hk]
    · intro hk
      unfold SnapshotJarProvider.receipt_by_hash
      simp only [hsome, hk]

/-- C5 witness: over providerC5 the auxiliar transaction_id resolves
hash 7 to row 3, and receipt_by_hash indeed answers exactly as receipt
at row 3 of the main (receipt) segment. -/
theorem claim5_witness :
    SnapshotJarProvider.receipt_by_hash (fun t => t) providerC5 7 =
      SnapshotJarProvider.receipt providerC5 3 :=
  ((claim5_receipt_by_hash (fun t => t) providerC5
      (SnapshotJarProvider.fromJar jarC5tx) 7).2 rfl).1 3 rfl

/-- C6: for row keys a ≤ b, headers_range over a..b succeeds with a list
of length at most b - a, every element of which is the value of
header_by_number at some row key in [a, b); absent rows are skipped
without failing the call. -/
theorem claim6_headers_range_sound (p : SnapshotJarProvider) (a b : Nat)
    (hab : a ≤ b) :
    ∃ l, p.headers_range (Bound.included a) (Bound.excluded b) =
        some (Except.ok l) ∧
      l.length ≤ b - a ∧
      ∀ h, h ∈ l → ∃ k, a ≤ k ∧ k < b ∧
        p.header_by_number k = Except.ok (some h) := by
  refine ⟨(colLoop headerCol p.cursor (List.range' a (b - a))).1, ?_, ?_, ?_⟩
  · unfold SnapshotJarProvider.headers_range to_range u64Sub
    simp [hab]
  · rw [colLoop_fst]
    calc (List.filterMap (fun n => headerCol p.cursor.jar n) (List.range' a (b - a))).length
        ≤ (List.range' a (b - a)).length := List.length_filterMap_le _ _
      _ = b - a := List.length_range' a 1 (b - a)
  · intro h hmem
    rw [colLoop_fst] at hmem
    rcases List.mem_filterMap.mp hmem with ⟨k, hk, hcol⟩
    rcases List.mem_range'.mp hk with ⟨i, hi, hki⟩
    refine ⟨k, by omega, by omega, ?_⟩
    unfold SnapshotJarProvider.header_by_number
    rw [Cursor.get_one_num_fst, hcol]

/-- C6 witness: over jarC6 (rows 0 and 1 present) the range 0..2 yields
a list of at most two headers, each of which header_by_number produces
at some row key below 2. -/
theorem claim6_witness :
    ∃ l, SnapshotJarProvider.headers_range providerC6 (Bound.included 0)
        (Bound.excluded 2) = some (Except.ok l) ∧
      l.length ≤ 2 - 0 ∧
      ∀ h, h ∈ l → ∃ k, 0 ≤ k ∧ k < 2 ∧
        SnapshotJarProvider.header_by_number providerC6 k = Except.ok (some h) :=
  claim6_headers_range_sound providerC6 0 2 (by decide)

/-- C7: when block_number h returns a number, that number is exactly the
row key the cursor reports as its last successful decode position — the
hash-resolved row whose decoded hash column equals h; on a hash
mismatch, a failed resolution or an absent row it returns None. -/
theorem claim7_block_number_cursor_position (p : SnapshotJarProvider) (h : Nat) :
    (∀ n, p.block_number h = Except.ok (some n) →
      ((p.cursor.get_one hashCol (Key.hash h)).2).row = n ∧
      p.jar.resolve h = some n ∧
      ∃ hr, p.jar.headerRows n = some hr ∧ hr.hash = h) ∧
    (∀ r hr, p.jar.resolve h = some r → p.jar.headerRows r = some hr →
      hr.hash ≠ h → p.block_number h = Except.ok none) ∧
    (p.jar.resolve h = none → p.block_number h = Except.ok none) ∧
    (∀ r, p.jar.resolve h = some r → p.jar.headerRows r = none →
      p.block_number h = Except.ok none) := by
  have heq := block_number_eq p h
  refine ⟨?_, ?_, ?_, ?_⟩
  · intro n hn
    rw [heq] at hn
    rcases hres : p.jar.resolve h with _ | r
    · simp only [hres] at hn; simp at hn
    · simp only [hres] at hn
      rcases hrow : p.jar.headerRows r with _ | hr
      · simp only [hrow] at hn; simp at hn
      · simp only [hrow] at hn
        by_cases hh : hr.hash = h
        · rw [if_pos hh] at hn
          simp only [Except.ok.injEq, Option.some.injEq] at hn
          subst hn
          refine ⟨?_, rfl, hr, hrow, hh⟩
          unfold Cursor.get_one
          simp [resolveKey, SnapshotJarProvider.cursor, hres, hashCol, hrow]
        · rw [if_neg hh] at hn
          simp at hn
  · intro r hr hres hrow hh
    rw [heq]
    simp [hres, hrow, hh]
  · intro hres
    rw [heq]
    simp [hres]
  · intro r hres hrow
    rw [heq]
    simp [hres, hrow]

/-- C7 witness: over jarC7 block_number 9 returns row 4, the cursor's
post-decode position, whose stored hash column is 9. -/
theorem claim7_witness :
    (((SnapshotJarProvider.cursor providerC7).get_one hashCol (Key.hash 9)).2).row = 4 ∧
    (SnapshotJarProvider.jar providerC7).resolve 9 = some 4 ∧
    ∃ hr, (SnapshotJarProvider.jar providerC7).headerRows 4 = some hr ∧ hr.hash = 9 :=
  (claim7_block_number_cursor_position providerC7 9).1 4 rfl

/-- C8: whenever to_range returns a half-open range, its start is 0 for
an unbounded start, the value for an inclusive start and the value plus
one for an exclusive start, and its end is the value plus one for an
inclusive end, the value for an exclusive end and u64MAX (not any
segment length) for an unbounded end. -/
theorem claim8_to_range_mapping (s e : Bound) (a b : Nat)
    (h : to_range s e = some (a, b)) :
    a = (match s with
         | Bound.included v => v
         | Bound.excluded v => v + 1
         | Bound.unbounded => 0) ∧
    b = (match e with
         | Bound.included v => v + 1
         | Bound.excluded v => v
         | Bound.unbounded => u64MAX) := by
  cases s with
  | included v =>
    cases e with
    | included w =>
      by_cases hw : w < u64MAX
      · simp [to_range, u64AddOne, hw] at h
        exact ⟨h.1.symm, h.2.symm⟩
      · simp [to_range, u64AddOne, hw] at h
    | excluded w =>
      simp [to_range, u64AddOne] at h
      exact ⟨h.1.symm, h.2.symm⟩
    | unbounded =>
      simp [to_range, u64AddOne] at h
      exact ⟨h.1.symm, h.2.symm⟩
  | excluded v =>
    cases e with
    | included w =>
      by_cases hv : v < u64MAX
      · by_cases hw : w < u64MAX
        · simp [to_range, u64AddOne, hv, hw] at h
          exact ⟨h.1.symm, h.2.symm⟩
        · simp [to_range, u64AddOne, hv, hw] at h
      · simp [to_range, u64AddOne, hv] at h
    | excluded w =>
      by_cases hv : v < u64MAX
      · simp [to_range, u64AddOne, hv] at h
        exact ⟨h.1.symm, h.2.symm⟩
      · simp [to_range, u64AddOne, hv] at h
    | unbounded =>
      by_cases hv : v < u64MAX
      · simp [to_range, u64AddOne, hv] at h
        exact ⟨h.1.symm, h.2.symm⟩
      · simp [to_range, u64AddOne, hv] at h
  | unbounded =>
    cases e with
    | included w =>
      by_cases hw : w < u64MAX
      · simp [to_range, u64AddOne, hw] at h
        exact ⟨h.1.symm, h.2.symm⟩
      · simp [to_range, u64AddOne, hw] at h
    | excluded w =>
      simp [to_range, u64AddOne] at h
      exact ⟨h.1.symm, h.2.symm⟩
    | unbounded =>
      simp [to_range, u64AddOne] at h
      exact ⟨h.1.symm, h.2.symm⟩

/-- C8 witness: the exclusive start 2 and inclusive end 5 normalize to
the half-open range from 3 to 6. -/
theorem claim8_witness :
    (3 : Nat) = (match Bound.excluded 2 with
         | Bound.included v => v
         | Bound.excluded v => v + 1
         | Bound.unbounded => 0) ∧
    (6 : Nat) = (match Bound.included 5 with
         | Bound.included v => v + 1
         | Bound.excluded v => v
         | Bound.unbounded => u64MAX) :=
  claim8_to_range_mapping (Bound.excluded 2) (Bound.included 5) 3 6 (by decide)

/-- C9: to_range is total exactly when the value of an exclusive start
bound and the value of an inclusive end bound stay strictly below
u64MAX — those two cases perform the unguarded increment — while
unbounded and inclusive starts and exclusive and unbounded ends never
increment and so never restrict totality. -/
theorem claim9_to_range_total_iff (s e : Bound) :
    (∃ r, to_range s e = some r) ↔
      ((match s with
        | Bound.excluded v => v < u64MAX
        | _ => True) ∧
       (match e with
        | Bound.included v => v < u64MAX
        | _ => True)) := by
  cases s with
  | included v =>
    cases e with
    | included w => by_cases hw : w < u64MAX <;> simp [to_range, u64AddOne, hw]
    | excluded w => simp [to_range, u64AddOne]
    | unbounded => simp [to_range, u64AddOne]
  | excluded v =>
    cases e with
    | included w =>
      by_cases hv : v < u64MAX <;> by_cases hw : w < u64MAX <;>
        simp [to_range, u64AddOne, hv, hw]
    | excluded w => by_cases hv : v < u64MAX <;> simp [to_range, u64AddOne, hv]
    | unbounded => by_cases hv : v < u64MAX <;> simp [to_range, u64AddOne, hv]
  | unbounded =>
    cases e with
    | included w => by_cases hw : w < u64MAX <;> simp [to_range, u64AddOne, hw]
    | excluded w => simp [to_range, u64AddOne]
    | unbounded => simp [to_range, u64AddOne]

/-- C10: each range-iterating query — headers_range,
sealed_headers_range, transactions_by_tx_range over arbitrary bounds and
canonical_hashes_range over explicit endpoints — completes exactly when
its (normalized) range satisfies start ≤ end, because the capacity is an
unchecked u64 subtraction of the endpoints; and to_range really can
produce a normalized range whose start exceeds its end, so the
precondition is genuine. -/
theorem claim10_range_queries_need_ordered_bounds (p : SnapshotJarProvider)
    (s e : Bound) (startv endv : Nat) :
    ((∃ x, p.headers_range s e = some x) ↔
      (∃ a b, to_range s e = some (a, b) ∧ a ≤ b)) ∧
    ((∃ x, p.sealed_headers_range s e = some x) ↔
      (∃ a b, to_range s e = some (a, b) ∧ a ≤ b)) ∧
    ((∃ x, p.transactions_by_tx_range s e = some x) ↔
      (∃ a b, to_range s e = some (a, b) ∧ a ≤ b)) ∧
    ((∃ x, p.canonical_hashes_range startv endv = some x) ↔ startv ≤ endv) ∧
    to_range (Bound.excluded 5) (Bound.excluded 3) = some (6, 3) ∧
    ¬ (6 : Nat) ≤ 3 := by
  refine ⟨?_, ?_, ?_, ?_, by decide, by decide⟩
  · unfold SnapshotJarProvider.headers_range
    rcases htr : to_range s e with _ | ⟨a, b⟩
    · simp
    · by_cases hab : a ≤ b
      · simp [u64Sub, hab]
        exact ⟨a, b, ⟨rfl, rfl⟩, hab⟩
      · simp [u64Sub, hab]
        omega
  · unfold SnapshotJarProvider.sealed_headers_range
    rcases htr : to_range s e with _ | ⟨a, b⟩
    · simp
    · by_cases hab : a ≤ b
      · simp [u64Sub, hab]
        exact ⟨a, b, ⟨rfl, rfl⟩, hab⟩
      · simp [u64Sub, hab]
        omega
  · unfold SnapshotJarProvider.transactions_by_tx_range
    rcases htr : to_range s e with _ | ⟨a, b⟩
    · simp
    · by_cases hab : a ≤ b
      · simp [u64Sub, hab]
        exact ⟨a, b, ⟨rfl, rfl⟩, hab⟩
      · simp [u64Sub, hab]
        omega
  · unfold SnapshotJarProvider.canonical_hashes_range
    by_cases hab : startv ≤ endv <;> simp [u64Sub, hab]

/-- C9 witness: the exclusive start 3 increments without overflow, so
to_range of 3..unbounded is defined. -/
theorem claim9_witness :
    ∃ r, to_range (Bound.excluded 3) Bound.unbounded = some r :=
  (claim9_to_range_total_iff (Bound.excluded 3) Bound.unbounded).mpr
    ⟨by decide, trivial⟩

/-- C10 witness: a concrete normalized range whose start exceeds its
end, produced from an exclusive start bound. -/
theorem claim10_witness :
    to_range (Bound.excluded 5) (Bound.excluded 3) = some (6, 3) :=
  (claim10_range_queries_need_ordered_bounds providerC6 (Bound.included 0)
    (Bound.excluded 2) 0 2).2.2.2.2.1
